import Mathlib

/-!
Verification of the YouTubeSubscriptionMarker membership engine.

A shallow embedding of the membership-resolution and quota-bounded caching
engine implemented in `background.js` (the service worker of the extension),
together with theorems settling the specification's claims about it.

Modelling conventions:
* JavaScript strings are Lean `String`s; `toLowerCase`, `startsWith`, `trim`
  and `split` are modelled by the `lowerStr`, `jsStartsWith`, `jsTrim` and
  `splitChar` functions below (ASCII-faithful).
* `Date.now()` is an explicit `now : Nat` argument; every comparison that
  subtracts timestamps is computed in `Int`, exactly as JavaScript numbers
  would behave for the reachable values.
* The module-level mutable variables of `background.js` (`cache`,
  `handleToChannelCache`, `subsIndex`, `lastNegativeVerifyAt`, `syncing`,
  the two token buckets, and the stored OAuth token) are gathered in the
  state record `St`, threaded explicitly.
* Network responses are oracles (`PcFetch`, `ResolveEnv`, `PageResult`)
  supplied as arguments; a thrown JavaScript exception is `Except.error`
  carrying the state at the throw point.
* `St` additionally carries ghost counters (`netCalls`, `pcChecks`,
  `scrapeRuns`, `searchRuns`, `saves`) incremented at the corresponding
  effect points of the source; they let frame claims ("no network call",
  "resolution not re-run", "persisted") be stated precisely and do not
  influence any branch.
-/

/-! ## String helpers modelling the JavaScript primitives -/

/-- Model of JavaScript `String.prototype.toLowerCase` (ASCII case map,
which is what every reachable input here uses): map `Char.toLower` over the
characters. -/
def lowerStr (s : String) : String :=
  ⟨s.data.map Char.toLower⟩

/-- Model of JavaScript `String.prototype.startsWith`. -/
def jsStartsWith (s p : String) : Bool :=
  s.data.take p.data.length = p.data

/-- JavaScript whitespace test for the characters `trim` removes (the
forms that occur in channel references). -/
def jsIsWs (c : Char) : Bool :=
  c = ' ' || c = '\t' || c = '\n' || c = '\r'

/-- Model of JavaScript `String.prototype.trim`. -/
def jsTrim (s : String) : String :=
  ⟨((s.data.dropWhile (jsIsWs · = true)).reverse.dropWhile (jsIsWs · = true)).reverse⟩

/-- Model of JavaScript `String.prototype.split` with a one-character
separator, on character lists. -/
def splitChar (sep : Char) : List Char → List Char → List (List Char)
  | [], acc => [acc.reverse]
  | x :: xs, acc =>
    if x = sep then acc.reverse :: splitChar sep xs []
    else splitChar sep xs (x :: acc)

/-- Association-list lookup modelling JavaScript object property access
(`m[k] !== undefined`). -/
def alookup {β : Type} : List (String × β) → String → Option β
  | [], _ => none
  | (k, v) :: rest, key => if k = key then some v else alookup rest key

/-- Association-list update modelling JavaScript object property
assignment `m[k] = v`. -/
def aset {β : Type} : List (String × β) → String → β → List (String × β)
  | [], k, v => [(k, v)]
  | (k', v') :: rest, k, v =>
    if k' = k then (k, v) :: rest else (k', v') :: aset rest k v

/-- Model of `Array.from(new Set(ids))`: keep the first occurrence of each
element, preserving order.  `seen` accumulates the elements already kept. -/
def dedupAcc (seen : List String) : List String → List String
  | [] => []
  | a :: l => if a ∈ seen then dedupAcc seen l else a :: dedupAcc (a :: seen) l

/-! ## Constants (from the configuration block of `background.js`) -/

def ONE_HOUR_MS : Nat := 60 * 60 * 1000

def SUB_LIST_TTL_MS : Nat := 12 * 60 * 60 * 1000

def NEGATIVE_CACHE_TTL_MS : Nat := 6 * 60 * 60 * 1000

def PC_BUDGET_MAX : Nat := 20

def PC_BUDGET_REFILL_MS : Nat := 60000

def VERIFY_BUDGET_MAX : Nat := 10

def VERIFY_BUDGET_REFILL_MS : Nat := 60000

def VERIFY_NEG_TTL_MS : Nat := 6 * 60 * 60 * 1000

/-! ## Reference normalization (`normalizeRef`, background.js 1434-1498) -/

/-- The character class `[0-9A-Za-z_-]` of the channel-id regular
expression. -/
def isUcIdChar (c : Char) : Bool :=
  ('0' ≤ c && c ≤ '9') || ('A' ≤ c && c ≤ 'Z') || ('a' ≤ c && c ≤ 'z') ||
    c = '_' || c = '-'

/-- Match `UC[0-9A-Za-z_-]{22}` as a prefix of `l` (the regular expressions
in `normalizeRef` are anchored but allow trailing characters); returns the
captured 24-character id. -/
def matchUcAt (l : List Char) : Option String :=
  let c := l.take 24
  if c.length = 24 && (c.take 2 = ['U', 'C'] : Bool) && (c.drop 2).all (isUcIdChar · = true) then
    some ⟨c⟩
  else none

/-- The normalized reference record produced by `normalizeRef`:
`{ kind, value, urlCandidates }`. -/
structure NormRef where
  kind : String
  value : String
  urlCandidates : List String
deriving Repr, DecidableEq

/-- Hexadecimal digit (upper case) used by the `encodeURIComponent`
model. -/
def hexDigitU (n : Nat) : Char :=
  if n < 10 then Char.ofNat (48 + n) else Char.ofNat (65 + (n - 10))

/-- Characters `encodeURIComponent` leaves unchanged. -/
def isUriUnreserved (c : Char) : Bool :=
  c.isAlphanum || c = '-' || c = '_' || c = '.' || c = '!' || c = '~' ||
    c = '*' || c = '\x27' || c = '(' || c = ')'

/-- Model of JavaScript `encodeURIComponent` for ASCII strings (the URLs
built by `normalizeRef` are ASCII): percent-encode every character outside
the unreserved set. -/
def encodeURIComp (s : String) : String :=
  ⟨s.data.flatMap fun c =>
    if isUriUnreserved c then [c]
    else ['%', hexDigitU (c.toNat / 16), hexDigitU (c.toNat % 16)]⟩

/-- The candidate-URL list built for handle / vanity references: base page,
`/about`, `/featured`, the mobile host, its `/about`, and the consent
wrapper around the base URL. -/
def vanityCandidates (base mob : String) : List String :=
  [base, base ++ "/about", base ++ "/featured", mob, mob ++ "/about",
    "https://consent.youtube.com/m?continue=" ++ encodeURIComp base]

/-- Result of the `@handle` branches of `normalizeRef`: the value is the
sigil plus the lower-cased handle. -/
def handleNorm (host clean : String) : NormRef :=
  let base := "https://" ++ host ++ "/@" ++ clean
  let mob := "https://m.youtube.com/@" ++ clean
  ⟨"handle", "@" ++ lowerStr clean, vanityCandidates base mob⟩

/-- Result of the `/c/<name>` branch of `normalizeRef`. -/
def cNorm (host name : String) : NormRef :=
  let base := "https://" ++ host ++ "/c/" ++ name
  let mob := "https://m.youtube.com/c/" ++ name
  ⟨"c", name, vanityCandidates base mob⟩

/-- Result of the `/user/<name>` branch of `normalizeRef`. -/
def userNorm (host name : String) : NormRef :=
  let base := "https://" ++ host ++ "/user/" ++ name
  let mob := "https://m.youtube.com/user/" ++ name
  ⟨"user", name, vanityCandidates base mob⟩

/-- The case-insensitive test `/^https?:\/\//i`. -/
def hasHttpScheme (s : String) : Bool :=
  jsStartsWith (lowerStr s) "http://" || jsStartsWith (lowerStr s) "https://"

/-- Everything after the last `@` of an authority component (the `new URL`
parser attributes the part before it to userinfo). -/
def afterLastAt (l : List Char) : List Char :=
  (l.reverse.takeWhile (· ≠ '@')).reverse

/-- Model of `new URL(s)` for the inputs reachable in `normalizeRef`
(strings beginning with an `http`/`https` scheme): returns
`(hostname, pathname)` with the hostname lower-cased and the port dropped,
or `none` when the authority is empty (the constructor throws). -/
def parseUrl (s : String) : Option (String × String) :=
  let n := if jsStartsWith (lowerStr s) "https://" then 8
           else if jsStartsWith (lowerStr s) "http://" then 7 else 0
  if n = 0 then none
  else
    let rest := s.data.drop n
    let auth := rest.takeWhile fun c => c ≠ '/' && c ≠ '?' && c ≠ '#'
    let tail := rest.drop auth.length
    let host := (afterLastAt auth).takeWhile (· ≠ ':')
    if host.isEmpty then none
    else
      let path := tail.takeWhile fun c => c ≠ '?' && c ≠ '#'
      let path := if path.isEmpty then ['/'] else path
      some (lowerStr ⟨host⟩, ⟨path⟩)

/-- The `i`-th segment of `path.split("/")`, or `""`. -/
def pathSeg (path : String) (i : Nat) : String :=
  ⟨((splitChar '/' path.data []).getD i [])⟩

/-- Test `/^\/@[^\/]+/`: a leading `/@` followed by at least one
non-separator character. -/
def isHandlePath (p : List Char) : Bool :=
  p.take 2 = ['/', '@'] && !((p.drop 2).takeWhile (· ≠ '/')).isEmpty

/-- Test `/^\/c\/[^\/]+/`. -/
def isCPath (p : List Char) : Bool :=
  p.take 3 = ['/', 'c', '/'] && !((p.drop 3).takeWhile (· ≠ '/')).isEmpty

/-- Test `/^\/user\/[^\/]+/`. -/
def isUserPath (p : List Char) : Bool :=
  p.take 6 = ['/', 'u', 's', 'e', 'r', '/'] &&
    !((p.drop 6).takeWhile (· ≠ '/')).isEmpty

/-- Model of `normalizeRef` (background.js 1434-1498): classify a channel reference
and produce resolution candidates.  Mirrors the source branch for branch;
the `r2` rebinding reflects the in-place reassignment of `r` before `new
URL`, whose thrown error yields the `unknown` result carrying the
reassigned string. -/
def normalizeRef (ref : String) : NormRef :=
  let r := jsTrim ref
  if r = "" then ⟨"unknown", "", []⟩
  else if jsStartsWith r "UC" && r.length = 24 then ⟨"uc", r, []⟩
  else if jsStartsWith r "@" then
    handleNorm "www.youtube.com" (⟨r.data.drop 1⟩ : String)
  else
    let r2 := if hasHttpScheme r then r
              else "https://www.youtube.com" ++
                   (if jsStartsWith r "/" then "" else "/") ++ r
    match parseUrl r2 with
    | none => ⟨"unknown", r2, []⟩
    | some (host0, path) =>
      let host := if jsStartsWith host0 "m." then "www." ++ ⟨host0.data.drop 2⟩
                  else host0
      if jsStartsWith path "/channel/" then
        match matchUcAt (path.data.drop 9) with
        | some id => ⟨"uc", id, []⟩
        | none => ⟨"url", r2, [r2]⟩
      else if isHandlePath path.data then
        handleNorm host (⟨(pathSeg path 1).data.drop 1⟩ : String)
      else if isCPath path.data then
        cNorm host (pathSeg path 2)
      else if isUserPath path.data then
        userNorm host (pathSeg path 2)
      else ⟨"url", r2, [r2]⟩

/-! ## Engine state (module-level variables of `background.js`) -/

/-- The persisted OAuth token record `{ access_token, expiry_date }`. -/
structure TokenRec where
  accessToken : String
  expiryDate : Nat
deriving Repr, DecidableEq

/-- One legacy per-channel cache entry `{ status, updatedAt }`. -/
structure CacheEntry where
  status : Bool
  updatedAt : Nat
deriving Repr, DecidableEq

/-- A reference-cache value: a resolved `UC` id (string) or the negative
marker `{ _neg: true, ts }`. -/
inductive RefEntry : Type where
  | pos (id : String)
  | neg (ts : Nat)
deriving Repr, DecidableEq

/-- The subscription index `{ updatedAt, ids }`. -/
structure SubsIndex where
  updatedAt : Nat
  ids : List String
deriving Repr, DecidableEq

/-- A token bucket: the current token count (a JavaScript number, hence
`Int`) and the start of the current refill window. -/
structure Bucket where
  tokens : Int
  lastRefill : Nat
deriving Repr, DecidableEq

/-- The module-level mutable state of the service worker, plus ghost
effect counters (`netCalls` counts Data-API fetches, `pcChecks` counts
invocations of `checkSubscribedPerChannel`, `scrapeRuns` / `searchRuns`
count invocations of the HTML / search resolvers, `saves` counts
`saveCachesToStorage` calls). -/
structure St where
  cache : List (String × CacheEntry)
  handleToChannelCache : List (String × RefEntry)
  subsIndex : SubsIndex
  lastNegativeVerifyAt : List (String × Nat)
  syncing : Bool
  pc : Bucket
  verify : Bucket
  token : Option TokenRec
  netCalls : Nat
  pcChecks : Nat
  scrapeRuns : Nat
  searchRuns : Nat
  saves : Nat
deriving Repr, DecidableEq

/-! ## Token and staleness accessors -/

/-- Model of `getValidToken` (background.js 1221-1226): the stored token if its
expiry lies strictly in the future. -/
def getValidToken (now : Nat) (st : St) : Option TokenRec :=
  match st.token with
  | some t => if (t.expiryDate : Int) > (now : Int) then some t else none
  | none => none

/-- Model of `isSubsIndexStale` (background.js 941-944): a zero (falsy) timestamp or
an age beyond `SUB_LIST_TTL_MS`. -/
def isSubsIndexStale (now : Nat) (st : St) : Bool :=
  st.subsIndex.updatedAt = 0 ||
    (now : Int) - (st.subsIndex.updatedAt : Int) > (SUB_LIST_TTL_MS : Int)

/-! ## Token buckets (background.js 993-1065) -/

/-- Model of `refillPcTokens` / `refillVerifyTokens`, generically: full reset to
capacity once the refill interval has elapsed. -/
def refillBucket (cap ms now : Nat) (b : Bucket) : Bucket :=
  if (now : Int) - (b.lastRefill : Int) ≥ (ms : Int) then
    { tokens := (cap : Int), lastRefill := now }
  else b

/-- Model of `consumePcToken` / `consumeVerifyToken`, generically: refill, then
spend one token if available. -/
def consumeBucket (cap ms now : Nat) (b : Bucket) : Bool × Bucket :=
  let b1 := refillBucket cap ms now b
  if b1.tokens > 0 then (true, { b1 with tokens := b1.tokens - 1 })
  else (false, b1)

/-- The operation `consumePcToken` acting on the engine state. -/
def consumePcToken (now : Nat) (st : St) : Bool × St :=
  let r := consumeBucket PC_BUDGET_MAX PC_BUDGET_REFILL_MS now st.pc
  (r.1, { st with pc := r.2 })

/-- The operation `consumeVerifyToken` acting on the engine state. -/
def consumeVerifyToken (now : Nat) (st : St) : Bool × St :=
  let r := consumeBucket VERIFY_BUDGET_MAX VERIFY_BUDGET_REFILL_MS now st.verify
  (r.1, { st with verify := r.2 })

/-! ## Network oracles -/

/-- Outcome of the per-channel subscriptions fetch in
`checkSubscribedPerChannel`: the fetch throws (network error / timeout), or
a response arrives with its `ok` flag, status code, whether `resp.json()`
parses, and whether `data.items` is non-empty. -/
inductive PcFetch : Type where
  | netErr
  | resp (ok : Bool) (status : Nat) (jsonOk : Bool) (hasItems : Bool)
deriving Repr, DecidableEq

/-- Oracle for the resolution pipeline: the result of
`resolveUcFromHtmlCandidates` (which swallows all of its errors), whether a
search API key is configured, and the result of `searchChannelIdFallback`
(which also swallows its errors). -/
structure ResolveEnv where
  htmlResolve : Option String
  searchKey : Bool
  searchResolve : Option String
deriving Repr, DecidableEq

/-- The oracles `isUserSubscribedLocal` may consult. -/
structure Env where
  resolve : ResolveEnv
  pcFetch : PcFetch
deriving Repr, DecidableEq

/-! ## Per-channel remote check (background.js 1662-1691) -/

/-- Model of `checkSubscribedPerChannel`: requires a valid token (else `false`
without a fetch); a thrown fetch or a malformed body propagates as
`Except.error` carrying the state at the throw; a 401 clears the token; any
other non-OK status yields `false`; an OK body yields "items non-empty" and
updates + persists the legacy cache entry. -/
def checkSubscribedPerChannel (f : PcFetch) (now : Nat) (channelId : String)
    (st : St) : Except St (Bool × St) :=
  let st := { st with pcChecks := st.pcChecks + 1 }
  match getValidToken now st with
  | none => .ok (false, st)
  | some _ =>
    let st := { st with netCalls := st.netCalls + 1 }
    match f with
    | .netErr => .error st
    | .resp ok status jsonOk hasItems =>
      if !ok then
        if status = 401 then .ok (false, { st with token := none })
        else .ok (false, st)
      else if !jsonOk then .error st
      else
        .ok (hasItems,
          { st with cache := aset st.cache channelId ⟨hasItems, now⟩,
                    saves := st.saves + 1 })

/-! ## Reference resolution (background.js 1606-1648) -/

/-- The reference-cache key `` `${norm.kind}:${norm.value}`.toLowerCase() ``. -/
def refCacheKey (ref : String) : String :=
  lowerStr ((normalizeRef ref).kind ++ ":" ++ (normalizeRef ref).value)

/-- The cache-miss tail of `resolveRefToUc`: run HTML scraping, then — when
a search key is configured and scraping failed — the search fallback; store
and persist a positive mapping or a fresh negative marker. -/
def runResolvePipeline (re : ResolveEnv) (now : Nat) (key : String) (st : St) :
    Option String × St :=
  let st := { st with scrapeRuns := st.scrapeRuns + 1 }
  let r :=
    match re.htmlResolve with
    | some i => (some i, st)
    | none =>
      if re.searchKey then (re.searchResolve, { st with searchRuns := st.searchRuns + 1 })
      else (none, st)
  match r with
  | (none, st) =>
    (none, { st with handleToChannelCache := aset st.handleToChannelCache key (.neg now),
                     saves := st.saves + 1 })
  | (some i, st) =>
    (some i, { st with handleToChannelCache := aset st.handleToChannelCache key (.pos i),
                       saves := st.saves + 1 })

/-- Model of `resolveRefToUc`: `uc` references short-circuit; a cached positive wins;
a cached negative younger than `NEGATIVE_CACHE_TTL_MS` yields `null`; a
stale negative or a missing entry runs the pipeline. -/
def resolveRefToUc (re : ResolveEnv) (now : Nat) (ref : String) (st : St) :
    Option String × St :=
  let norm := normalizeRef ref
  let key := refCacheKey ref
  if norm.kind = "uc" then (some norm.value, st)
  else
    match alookup st.handleToChannelCache key with
    | some (.neg ts) =>
      if !((now : Int) - (ts : Int) > (NEGATIVE_CACHE_TTL_MS : Int)) then (none, st)
      else runResolvePipeline re now key st
    | some (.pos i) => (some i, st)
    | none => runResolvePipeline re now key st

/-! ## Membership decision (background.js 1705-1753) -/

/-- The legacy-cache tail of `isUserSubscribedLocal` (background.js
1746-1752): an entry younger than one hour yields its status, otherwise
`false`. -/
def legacyDecision (now : Nat) (channelId : String) (st : St) : Bool :=
  match alookup st.cache channelId with
  | some c => if (now : Int) - (c.updatedAt : Int) < (ONE_HOUR_MS : Int) then c.status
              else false
  | none => false

/-- The body of `isUserSubscribedLocal` after reference resolution
(background.js 1714-1752).  With a non-empty index: a set hit returns
`true`; on a miss, if the last negative verification is out of its TTL and
a verification token is consumed, the per-channel check runs (its thrown
errors are NOT caught here), the throttle is stamped, an affirmative result
is appended to the index and persisted, and the result is returned.  With
an empty index: while stale and under the warm-start budget the per-channel
check runs with its errors caught to `false`; otherwise the legacy cache
decides. -/
def decideMembership (e : Env) (now : Nat) (channelId : String) (st : St) :
    Except St (Bool × St) :=
  if st.subsIndex.ids.isEmpty then
    if isSubsIndexStale now st then
      match consumePcToken now st with
      | (true, st1) =>
        match checkSubscribedPerChannel e.pcFetch now channelId st1 with
        | .error st2 => .ok (false, st2)
        | .ok r => .ok r
      | (false, st1) => .ok (legacyDecision now channelId st1, st1)
    else .ok (legacyDecision now channelId st, st)
  else
    if channelId ∈ st.subsIndex.ids then .ok (true, st)
    else
      let lastNeg := (alookup st.lastNegativeVerifyAt channelId).getD 0
      if !((now : Int) - (lastNeg : Int) < (VERIFY_NEG_TTL_MS : Int)) then
        match consumeVerifyToken now st with
        | (true, st1) =>
          match checkSubscribedPerChannel e.pcFetch now channelId st1 with
          | .error st2 => .error st2
          | .ok (verified, st2) =>
            let st3 := { st2 with
              lastNegativeVerifyAt := aset st2.lastNegativeVerifyAt channelId now }
            if verified && !(channelId ∈ st3.subsIndex.ids) then
              .ok (verified, { st3 with
                subsIndex := { st3.subsIndex with ids := st3.subsIndex.ids ++ [channelId] },
                saves := st3.saves + 1 })
            else .ok (verified, st3)
        | (false, st1) => .ok (false, st1)
      else .ok (false, st)

/-- Model of `isUserSubscribedLocal` (background.js 1705-1753): an input already
beginning with `UC` skips resolution; anything else goes through
`resolveRefToUc`, an unresolved reference yielding `false`. -/
def isUserSubscribedLocal (e : Env) (now : Nat) (idOrRef : String) (st : St) :
    Except St (Bool × St) :=
  if jsStartsWith idOrRef "UC" then decideMembership e now idOrRef st
  else
    match resolveRefToUc e.resolve now idOrRef st with
    | (none, st1) => .ok (false, st1)
    | (some cid, st1) => decideMembership e now cid st1

/-- Returns `true` exactly when the call raised a JavaScript exception. -/
def isThrown : Except St (Bool × St) → Bool
  | .error _ => true
  | .ok _ => false

/-- Whether `checkSubscribedPerChannel` completes (returns a boolean rather
than throwing): always when no valid token is held (no fetch is issued);
otherwise the fetch must not throw and, for an OK response, the body must
parse. -/
def pcCompletes (tokOk : Bool) (f : PcFetch) : Bool :=
  if !tokOk then true
  else match f with
    | .netErr => false
    | .resp ok _ jsonOk _ => !ok || jsonOk

/-- The boolean a completed `checkSubscribedPerChannel` returns. -/
def pcOutcome (tokOk : Bool) (f : PcFetch) : Bool :=
  if !tokOk then false
  else match f with
    | .netErr => false
    | .resp ok _ _ hasItems => if !ok then false else hasItems

/-! ## Full index refresh (background.js 1240-1311) -/

/-- Outcome of one subscriptions-list page fetch: a thrown fetch or
unparsable body, a non-OK status, or an OK page carrying the extracted
`channelId`s and whether a `nextPageToken` is present. -/
inductive PageResult : Type where
  | throwErr
  | badStatus (status : Nat)
  | okPage (ids : List String) (hasNext : Bool)
deriving Repr, DecidableEq

/-- The paging loop of `ensureSubsIndexFresh`.  Every iteration issues one
fetch.  A thrown fetch (also modelling an exhausted oracle) or a non-OK
status aborts: the `catch` returns `false` and the `finally` clears
`syncing`, a 401 additionally clearing the token; the accumulation is
discarded.  The final page installs the de-duplicated, re-stamped index
and persists it. -/
def subsLoop (now : Nat) : List PageResult → List String → St → Bool × St
  | ps, accum, st =>
    let st := { st with netCalls := st.netCalls + 1 }
    match ps with
    | [] => (false, { st with syncing := false })
    | .throwErr :: _ => (false, { st with syncing := false })
    | .badStatus status :: _ =>
      if status = 401 then (false, { st with token := none, syncing := false })
      else (false, { st with syncing := false })
    | .okPage ids hasNext :: rest =>
      let accum2 := accum ++ ids.filter (fun i => jsStartsWith i "UC")
      if hasNext then subsLoop now rest accum2 st
      else
        (true, { st with subsIndex := ⟨now, dedupAcc [] accum2⟩,
                         syncing := false, saves := st.saves + 1 })

/-- Model of `ensureSubsIndexFresh`: the `syncing` guard, the TTL check (unless
forced) and the token requirement soft-fail; otherwise `syncing` is set and
the paging loop runs. -/
def ensureSubsIndexFresh (force : Bool) (pages : List PageResult) (now : Nat)
    (st : St) : Bool × St :=
  if st.syncing then (false, st)
  else if !force && !isSubsIndexStale now st then (false, st)
  else
    match getValidToken now st with
    | none => (false, st)
    | some _ => subsLoop now pages [] { st with syncing := true }

/-- Whether the paging loop fails before reaching a final page. -/
def pagesFail : List PageResult → Bool
  | [] => true
  | .throwErr :: _ => true
  | .badStatus _ :: _ => true
  | .okPage _ true :: rest => pagesFail rest
  | .okPage _ false :: _ => false

/-! ## Cooperative interleaving of two concurrent refresh calls

`ensureSubsIndexFresh` checks the `syncing` guard synchronously on entry
but only sets it after `await getValidToken()`, a genuine suspension point
(an `async` storage read).  The step relation below cuts the function at
exactly its `await` boundaries: `entry` runs the guard and TTL checks and
suspends on the credential read; `tokenRead` resumes with the credential,
sets the guard and issues the first page fetch; each `paging` step consumes
one page response.  Any other task may run between two steps of one task,
which is precisely the JavaScript event-loop semantics. -/

/-- The continuation of one in-flight `ensureSubsIndexFresh` call. -/
inductive RefreshPc : Type where
  | entry
  | tokenRead
  | paging (accum : List String) (rest : List PageResult)
  | done (res : Bool)
deriving Repr, DecidableEq

/-- One concurrent `ensureSubsIndexFresh` caller: its argument, its page
oracle, its continuation, and a ghost count of the page fetches it has
issued. -/
structure RefreshTask where
  force : Bool
  pages : List PageResult
  pc : RefreshPc
  pagingCalls : Nat
deriving Repr, DecidableEq

/-- One atomic segment of `ensureSubsIndexFresh` for one task. -/
def refreshStep (now : Nat) (t : RefreshTask) (st : St) : RefreshTask × St :=
  match t.pc with
  | .entry =>
    if st.syncing then ({ t with pc := .done false }, st)
    else if !t.force && !isSubsIndexStale now st then ({ t with pc := .done false }, st)
    else ({ t with pc := .tokenRead }, st)
  | .tokenRead =>
    match getValidToken now st with
    | none => ({ t with pc := .done false }, st)
    | some _ =>
      ({ t with pc := .paging [] t.pages, pagingCalls := t.pagingCalls + 1 },
       { st with syncing := true, netCalls := st.netCalls + 1 })
  | .paging accum rest =>
    match rest with
    | [] => ({ t with pc := .done false }, { st with syncing := false })
    | .throwErr :: _ => ({ t with pc := .done false }, { st with syncing := false })
    | .badStatus status :: _ =>
      if status = 401 then
        ({ t with pc := .done false }, { st with token := none, syncing := false })
      else ({ t with pc := .done false }, { st with syncing := false })
    | .okPage ids hasNext :: rest2 =>
      let accum2 := accum ++ ids.filter (fun i => jsStartsWith i "UC")
      if hasNext then
        ({ t with pc := .paging accum2 rest2, pagingCalls := t.pagingCalls + 1 },
         { st with netCalls := st.netCalls + 1 })
      else
        ({ t with pc := .done true },
         { st with subsIndex := ⟨now, dedupAcc [] accum2⟩,
                   syncing := false, saves := st.saves + 1 })
  | .done _ => (t, st)

/-- Run two concurrent refresh callers under an explicit schedule: each
schedule entry names the task whose next segment runs. -/
def runTwo (now : Nat) : List Bool → RefreshTask × RefreshTask × St →
    RefreshTask × RefreshTask × St
  | [], s => s
  | pick :: sched, (t0, t1, st) =>
    if pick then
      let r := refreshStep now t1 st
      runTwo now sched (t0, r.1, r.2)
    else
      let r := refreshStep now t0 st
      runTwo now sched (r.1, t1, r.2)

/-! ## Repeated bucket consumption (for the budget-exhaustion property) -/

/-- Apply `consumeBucket` at each instant of `ts` in order, collecting the
results. -/
def consumeSeq (cap ms : Nat) : List Nat → Bucket → List Bool × Bucket
  | [], b => ([], b)
  | t :: ts, b =>
    let r := consumeBucket cap ms t b
    let rs := consumeSeq cap ms ts r.2
    (r.1 :: rs.1, rs.2)

/-! ## Sample data for concrete instantiations -/

/-- A canonical 24-character channel id (`UC` + 22 `a`s). -/
def ucA : String := "UCaaaaaaaaaaaaaaaaaaaaaa"

/-- A second canonical channel id. -/
def ucB : String := "UCbbbbbbbbbbbbbbbbbbbbbb"

/-- A stored, far-future-expiry OAuth token. -/
def tokSample : TokenRec := ⟨"tok", 9000000000⟩

/-- Freshly initialized engine state: empty caches, never-synced index,
full buckets, a valid token. -/
def stBase : St :=
  { cache := [], handleToChannelCache := [], subsIndex := ⟨0, []⟩,
    lastNegativeVerifyAt := [], syncing := false,
    pc := ⟨(PC_BUDGET_MAX : Int), 0⟩, verify := ⟨(VERIFY_BUDGET_MAX : Int), 0⟩,
    token := some tokSample,
    netCalls := 0, pcChecks := 0, scrapeRuns := 0, searchRuns := 0, saves := 0 }

/-- An environment whose per-channel fetch answers OK / subscribed and
whose resolvers find nothing. -/
def envOk : Env := ⟨⟨none, false, none⟩, .resp true 200 true true⟩

/-- State with a one-entry subscription index, recently updated. -/
def stIdx : St := { stBase with subsIndex := ⟨1000, [ucA]⟩ }

/-! ## Claim C2: an index hit is authoritative and free -/

/-- C2: for a canonical identifier present in a non-empty subscription
index, `isUserSubscribedLocal` returns `true` with the state unchanged —
in particular both token buckets (`pc`, `verify`) and the network-call
counter are exactly as before, so no token is consumed and no network call
is made. -/
theorem index_hit_true_no_cost (e : Env) (now : Nat) (st : St) (id : String)
    (hUC : jsStartsWith id "UC" = true)
    (hne : st.subsIndex.ids ≠ [])
    (hmem : id ∈ st.subsIndex.ids) :
    isUserSubscribedLocal e now id st = .ok (true, st) := by
  unfold isUserSubscribedLocal decideMembership
  simp [hUC, List.isEmpty_iff, hne, hmem]

/-- Witness for C2 at a concrete index hit. -/
theorem index_hit_true_no_cost_witness :
    isUserSubscribedLocal envOk 5000 ucA stIdx = .ok (true, stIdx) :=
  index_hit_true_no_cost envOk 5000 stIdx ucA (by decide) (by decide) (by decide)

/-! ## Claim C9: any `UC`-prefixed input skips resolution -/

/-- C9: `isUserSubscribedLocal` treats every input beginning with `"UC"` —
of any length, e.g. `"UCx"` — as already canonical: it goes straight to the
index/verification/legacy decision (`decideMembership`) without invoking
`resolveRefToUc`, even though `normalizeRef` classifies `"UCx"` as kind
`"url"`, not `"uc"` (only length-24 `UC` strings get kind `"uc"`). -/
theorem uc_input_skips_resolution :
    (∀ (e : Env) (now : Nat) (st : St) (s : String),
      jsStartsWith s "UC" = true →
      isUserSubscribedLocal e now s st = decideMembership e now s st) ∧
    (normalizeRef "UCx").kind = "url" := by
  constructor
  · intro e now st s h
    unfold isUserSubscribedLocal
    simp [h]
  · rfl

/-- Witness for C9: the short `"UCx"` goes straight to the decision. -/
theorem uc_input_skips_resolution_witness :
    isUserSubscribedLocal envOk 5000 "UCx" stIdx =
      decideMembership envOk 5000 "UCx" stIdx :=
  uc_input_skips_resolution.1 envOk 5000 stIdx "UCx" (by decide)

/-! ## Claim C10: recent-but-empty index falls through to the legacy cache -/

/-- C10: with an empty `ids` list but a recent non-zero `updatedAt` (a
successful sync of a user with zero subscriptions), the index is neither
authoritative nor does negative verification or the warm-start check run
(the index is not stale): the call returns the legacy-cache decision (entry
younger than one hour, else `false`) and leaves the state — buckets,
counters, caches — untouched. -/
theorem empty_fresh_index_uses_legacy (e : Env) (now : Nat) (st : St) (id : String)
    (hUC : jsStartsWith id "UC" = true)
    (hids : st.subsIndex.ids = [])
    (hupd : ¬st.subsIndex.updatedAt = 0)
    (hfresh : ¬((now : Int) - (st.subsIndex.updatedAt : Int) > (SUB_LIST_TTL_MS : Int))) :
    isUserSubscribedLocal e now id st = .ok (legacyDecision now id st, st) := by
  unfold isUserSubscribedLocal decideMembership isSubsIndexStale
  simp [hUC, hids, hupd, hfresh]

/-- Witness for C10: recent empty index, a 30-minute-old legacy entry. -/
theorem empty_fresh_index_uses_legacy_witness :
    isUserSubscribedLocal envOk 2000000
      ucB { stBase with subsIndex := ⟨1000000, []⟩, cache := [(ucB, ⟨true, 1500000⟩)] } =
      .ok (true, { stBase with subsIndex := ⟨1000000, []⟩, cache := [(ucB, ⟨true, 1500000⟩)] }) := by
  have h := empty_fresh_index_uses_legacy envOk 2000000
    { stBase with subsIndex := ⟨1000000, []⟩, cache := [(ucB, ⟨true, 1500000⟩)] }
    ucB (by decide) (by decide) (by decide) (by decide)
  rw [h]
  rfl

/-! ## Claim C6: token-bucket invariants and exhaustion count -/

/-- Counting helper: starting from `k ≤ cap` tokens with the window open at
`t0`, consumption at instants all inside the window (so no refill fires)
returns `true` for the first `k` calls and `false` afterwards. -/
theorem consumeSeq_within_window (cap ms t0 : Nat) (ts : List Nat) :
    ∀ (k : Nat), k ≤ cap →
      (∀ t ∈ ts, (t : Int) - (t0 : Int) < (ms : Int)) →
      (consumeSeq cap ms ts ⟨(k : Int), t0⟩).1 =
        List.replicate (min k ts.length) true ++ List.replicate (ts.length - k) false := by
  induction ts with
  | nil => intro k _ _; simp [consumeSeq]
  | cons t ts ih =>
    intro k hk hw
    have hnr : ¬((t : Int) - (t0 : Int) ≥ (ms : Int)) := by
      have := hw t (by simp)
      omega
    match k with
    | 0 =>
      have ih0 := ih 0 (Nat.zero_le _) (fun x hx => hw x (List.mem_cons_of_mem _ hx))
      simp only [consumeSeq, consumeBucket, refillBucket, if_neg hnr]
      norm_num at ih0 ⊢
      rw [ih0]
      simp [List.replicate_succ]
    | k + 1 =>
      have ihk := ih k (Nat.le_of_succ_le hk) (fun x hx => hw x (List.mem_cons_of_mem _ hx))
      simp only [consumeSeq, consumeBucket, refillBucket, if_neg hnr]
      have hpos : ((k + 1 : Nat) : Int) > 0 := by positivity
      rw [if_pos hpos]
      have hc : ((k + 1 : Nat) : Int) - 1 = ((k : Nat) : Int) := by push_cast; ring
      simp only [hc, ihk]
      simp only [List.length_cons, Nat.succ_min_succ, Nat.succ_sub_succ,
        List.replicate_succ, List.cons_append]

/-- C6: (i) generically, refill and consume keep `0 ≤ tokens ≤ capacity`;
(ii)/(iii) in particular the warm-start and verification buckets of the
engine state preserve their bounds under `consumePcToken` /
`consumeVerifyToken`; (iv) from a full bucket, `capacity + 1` consume calls
all inside one refill window return `true` exactly `capacity` times and
then `false`. -/
theorem token_buckets_bounded_and_exhaust :
    (∀ (cap ms now : Nat) (b : Bucket), 0 ≤ b.tokens → b.tokens ≤ (cap : Int) →
      (0 ≤ (refillBucket cap ms now b).tokens ∧
        (refillBucket cap ms now b).tokens ≤ (cap : Int)) ∧
      (0 ≤ (consumeBucket cap ms now b).2.tokens ∧
        (consumeBucket cap ms now b).2.tokens ≤ (cap : Int))) ∧
    (∀ (now : Nat) (st : St), 0 ≤ st.pc.tokens → st.pc.tokens ≤ (PC_BUDGET_MAX : Int) →
      0 ≤ (consumePcToken now st).2.pc.tokens ∧
        (consumePcToken now st).2.pc.tokens ≤ (PC_BUDGET_MAX : Int)) ∧
    (∀ (now : Nat) (st : St), 0 ≤ st.verify.tokens →
      st.verify.tokens ≤ (VERIFY_BUDGET_MAX : Int) →
      0 ≤ (consumeVerifyToken now st).2.verify.tokens ∧
        (consumeVerifyToken now st).2.verify.tokens ≤ (VERIFY_BUDGET_MAX : Int)) ∧
    (∀ (cap ms t0 : Nat) (ts : List Nat),
      (∀ t ∈ ts, (t : Int) - (t0 : Int) < (ms : Int)) → ts.length = cap + 1 →
      (consumeSeq cap ms ts ⟨(cap : Int), t0⟩).1 =
        List.replicate cap true ++ [false]) := by
  have bounds : ∀ (cap ms now : Nat) (b : Bucket), 0 ≤ b.tokens → b.tokens ≤ (cap : Int) →
      (0 ≤ (refillBucket cap ms now b).tokens ∧
        (refillBucket cap ms now b).tokens ≤ (cap : Int)) ∧
      (0 ≤ (consumeBucket cap ms now b).2.tokens ∧
        (consumeBucket cap ms now b).2.tokens ≤ (cap : Int)) := by
    intro cap ms now b h0 h1
    have hr : 0 ≤ (refillBucket cap ms now b).tokens ∧
        (refillBucket cap ms now b).tokens ≤ (cap : Int) := by
      unfold refillBucket
      split
      · exact ⟨Int.natCast_nonneg cap, le_refl _⟩
      · exact ⟨h0, h1⟩
    refine ⟨hr, ?_⟩
    unfold consumeBucket
    simp only
    split
    · rename_i ht
      simp only
      constructor <;> omega
    · exact hr
  refine ⟨bounds, ?_, ?_, ?_⟩
  · intro now st h0 h1
    exact ((bounds PC_BUDGET_MAX PC_BUDGET_REFILL_MS now st.pc h0 h1).2)
  · intro now st h0 h1
    exact ((bounds VERIFY_BUDGET_MAX VERIFY_BUDGET_REFILL_MS now st.verify h0 h1).2)
  · intro cap ms t0 ts hw hlen
    have h := consumeSeq_within_window cap ms t0 ts cap (le_refl _) hw
    rw [h, hlen]
    simp

/-- Witness for C6 at concrete buckets: capacity 2, window 10, three
consumes at instants 1, 2, 3. -/
theorem token_buckets_witness :
    (0 ≤ (consumeBucket 2 10 5 ⟨1, 0⟩).2.tokens ∧
      (consumeBucket 2 10 5 ⟨1, 0⟩).2.tokens ≤ (2 : Int)) ∧
    (0 ≤ (consumePcToken 5 stBase).2.pc.tokens ∧
      (consumePcToken 5 stBase).2.pc.tokens ≤ (PC_BUDGET_MAX : Int)) ∧
    (0 ≤ (consumeVerifyToken 5 stBase).2.verify.tokens ∧
      (consumeVerifyToken 5 stBase).2.verify.tokens ≤ (VERIFY_BUDGET_MAX : Int)) ∧
    (consumeSeq 2 10 [1, 2, 3] ⟨2, 0⟩).1 = List.replicate 2 true ++ [false] :=
  ⟨(token_buckets_bounded_and_exhaust.1 2 10 5 ⟨1, 0⟩ (by decide) (by decide)).2,
   token_buckets_bounded_and_exhaust.2.1 5 stBase (by decide) (by decide),
   token_buckets_bounded_and_exhaust.2.2.1 5 stBase (by decide) (by decide),
   token_buckets_bounded_and_exhaust.2.2.2 2 10 0 [1, 2, 3] (by decide) (by decide)⟩

/-! ## Claim C7: the negative reference cache gates re-resolution -/

/-- C7: while a negative reference-cache entry is within
`NEGATIVE_CACHE_TTL_MS`, `resolveRefToUc` answers `null` with the state
untouched — in particular neither the scrape nor the search resolver runs
again; once the age exceeds the TTL the very same call re-runs the full
pipeline (`runResolvePipeline`, which always performs a scrape attempt:
third conjunct) instead of returning the cached negative. -/
theorem negative_cache_gates_resolution (re : ResolveEnv) (now : Nat)
    (ref : String) (st : St) (ts : Nat)
    (hk : ¬(normalizeRef ref).kind = "uc")
    (hneg : alookup st.handleToChannelCache (refCacheKey ref) = some (.neg ts)) :
    (((now : Int) - (ts : Int) ≤ (NEGATIVE_CACHE_TTL_MS : Int)) →
      resolveRefToUc re now ref st = (none, st)) ∧
    (((now : Int) - (ts : Int) > (NEGATIVE_CACHE_TTL_MS : Int)) →
      resolveRefToUc re now ref st =
        runResolvePipeline re now (refCacheKey ref) st) ∧
    (∀ (key : String) (st2 : St),
      (runResolvePipeline re now key st2).2.scrapeRuns = st2.scrapeRuns + 1) := by
  refine ⟨?_, ?_, ?_⟩
  · intro hage
    unfold resolveRefToUc
    simp only [if_neg hk, hneg]
    rw [if_pos]
    simp only [Bool.not_eq_true', decide_eq_false_iff_not]
    omega
  · intro hage
    unfold resolveRefToUc
    simp only [if_neg hk, hneg]
    rw [if_neg]
    simp only [Bool.not_eq_true', decide_eq_false_iff_not, Decidable.not_not]
    omega
  · intro key st2
    unfold runResolvePipeline
    cases re.htmlResolve <;> by_cases hs : re.searchKey <;>
      cases hsr : re.searchResolve <;> simp [hs, hsr]

/-- State holding a negative cache entry for the handle `@foo`, stamped at
time 1000. -/
def stNeg : St :=
  { stBase with handleToChannelCache := [("handle:@foo", .neg 1000)] }

/-- Witness for C7: the same negative entry blocks resolution at age
1000 ms and triggers the pipeline at an age beyond the TTL. -/
theorem negative_cache_witness :
    resolveRefToUc ⟨none, false, none⟩ 2000 "@foo" stNeg = (none, stNeg) ∧
    resolveRefToUc ⟨none, false, none⟩ 99999999 "@foo" stNeg =
      runResolvePipeline ⟨none, false, none⟩ 99999999 (refCacheKey "@foo") stNeg :=
  ⟨(negative_cache_gates_resolution ⟨none, false, none⟩ 2000 "@foo" stNeg 1000
      (by decide) (by decide)).1 (by decide),
   (negative_cache_gates_resolution ⟨none, false, none⟩ 99999999 "@foo" stNeg 1000
      (by decide) (by decide)).2.1 (by decide)⟩

/-! ## Shared lemmas for the verification branch -/

/-- Updating a key makes it the lookup result. -/
theorem alookup_aset {β : Type} (m : List (String × β)) (k : String) (v : β) :
    alookup (aset m k v) k = some v := by
  induction m with
  | nil => simp [aset, alookup]
  | cons p rest ih =>
    by_cases h : p.1 = k
    · simp [aset, alookup, h]
    · simp only [aset]
      rw [if_neg h]
      simp only [alookup]
      rw [if_neg h]
      exact ih

/-- Characterization of `checkSubscribedPerChannel` when the remote call
completes: it returns `pcOutcome`, bumps the invocation counter, and leaves
the index, the throttle map, both buckets and the reference cache alone; an
affirmed result persists a cache write. -/
theorem checkSubscribed_completes (f : PcFetch) (now : Nat) (id : String) (st : St)
    (h : pcCompletes (getValidToken now st).isSome f = true) :
    ∃ st', checkSubscribedPerChannel f now id st =
        .ok (pcOutcome (getValidToken now st).isSome f, st') ∧
      st'.pcChecks = st.pcChecks + 1 ∧
      st'.subsIndex = st.subsIndex ∧
      st'.lastNegativeVerifyAt = st.lastNegativeVerifyAt ∧
      st'.verify = st.verify ∧
      st'.pc = st.pc ∧
      st'.handleToChannelCache = st.handleToChannelCache ∧
      st.saves ≤ st'.saves ∧
      (pcOutcome (getValidToken now st).isSome f = true → st.saves < st'.saves) := by
  have htok : getValidToken now { st with pcChecks := st.pcChecks + 1 } =
      getValidToken now st := rfl
  unfold checkSubscribedPerChannel
  simp only
  rw [htok]
  cases hm : getValidToken now st with
  | none =>
    refine ⟨{ st with pcChecks := st.pcChecks + 1 }, ?_, rfl, rfl, rfl, rfl, rfl, rfl,
      le_refl _, ?_⟩
    · simp [pcOutcome, hm]
    · intro hc
      simp [pcOutcome, hm] at hc
  | some t =>
    cases f with
    | netErr =>
      exfalso
      simp [pcCompletes, hm] at h
    | resp ok status jsonOk hasItems =>
      cases ok with
      | false =>
        by_cases hst : status = 401
        · subst hst
          refine ⟨{ st with pcChecks := st.pcChecks + 1, netCalls := st.netCalls + 1, token := none }, ?_, rfl, rfl, rfl, rfl, rfl, rfl, le_refl _, ?_⟩
          · simp [pcOutcome, hm]
          · intro hc
            simp [pcOutcome, hm] at hc
        · refine ⟨{ st with pcChecks := st.pcChecks + 1, netCalls := st.netCalls + 1 },
            ?_, rfl, rfl, rfl, rfl, rfl, rfl, le_refl _, ?_⟩
          · simp [pcOutcome, hm, hst]
          · intro hc
            simp [pcOutcome, hm] at hc
      | true =>
        have hj : jsonOk = true := by simpa [pcCompletes, hm] using h
        subst hj
        refine ⟨{ st with pcChecks := st.pcChecks + 1, netCalls := st.netCalls + 1, cache := aset st.cache id ⟨hasItems, now⟩, saves := st.saves + 1 }, ?_, rfl, rfl, rfl, rfl, rfl, rfl, ?_, ?_⟩
        · simp [pcOutcome, hm]
        · simp
        · intro hc
          simp

/-! ## Claim C3: the negative-verification branch -/

/-- C3: with a non-empty index, a missed identifier whose last negative
verification is out of its TTL, and an available verification token, one
per-channel check runs (`pcChecks` rises by exactly one), the throttle is
stamped with the current time regardless of the check's boolean outcome,
the identifier is appended to the index exactly when the check affirms
membership (with a persisting save following), and the check's result is
the return value.  The hypothesis `hcomp` restricts attention to checks
that complete with a boolean — a thrown fetch propagates instead (see the
error-handling claim). -/
theorem negative_verification_runs_once (e : Env) (now : Nat) (st : St) (id : String)
    (hUC : jsStartsWith id "UC" = true)
    (hne : st.subsIndex.ids ≠ [])
    (hmiss : id ∉ st.subsIndex.ids)
    (hold : ¬((now : Int) - (((alookup st.lastNegativeVerifyAt id).getD 0 : Nat) : Int) <
      (VERIFY_NEG_TTL_MS : Int)))
    (htok : (refillBucket VERIFY_BUDGET_MAX VERIFY_BUDGET_REFILL_MS now st.verify).tokens > 0)
    (hcomp : pcCompletes (getValidToken now st).isSome e.pcFetch = true) :
    ∃ st', isUserSubscribedLocal e now id st =
        .ok (pcOutcome (getValidToken now st).isSome e.pcFetch, st') ∧
      st'.pcChecks = st.pcChecks + 1 ∧
      alookup st'.lastNegativeVerifyAt id = some now ∧
      st'.subsIndex.ids = st.subsIndex.ids ++
        (if pcOutcome (getValidToken now st).isSome e.pcFetch = true then [id] else []) ∧
      (pcOutcome (getValidToken now st).isSome e.pcFetch = true → st.saves < st'.saves) := by
  have hcons : consumeVerifyToken now st =
      (true, { st with verify := { (refillBucket VERIFY_BUDGET_MAX VERIFY_BUDGET_REFILL_MS now st.verify) with tokens := (refillBucket VERIFY_BUDGET_MAX VERIFY_BUDGET_REFILL_MS now st.verify).tokens - 1 } }) := by
    unfold consumeVerifyToken consumeBucket
    simp only
    rw [if_pos htok]
  set st1 := { st with verify := { (refillBucket VERIFY_BUDGET_MAX VERIFY_BUDGET_REFILL_MS now st.verify) with tokens := (refillBucket VERIFY_BUDGET_MAX VERIFY_BUDGET_REFILL_MS now st.verify).tokens - 1 } } with hst1
  have htok1 : getValidToken now st1 = getValidToken now st := rfl
  have hcomp1 : pcCompletes (getValidToken now st1).isSome e.pcFetch = true := by
    rw [htok1]; exact hcomp
  obtain ⟨st2, hrun, hchk, hsub, hneg2, hver, hpc, hhc, hsle, hslt⟩ :=
    checkSubscribed_completes e.pcFetch now id st1 hcomp1
  rw [htok1] at hrun
  unfold isUserSubscribedLocal decideMembership
  simp only [hUC, if_pos]
  rw [if_neg (by simpa using hne)]
  rw [if_neg (by simpa using hmiss)]
  rw [if_pos (by simpa using hold)]
  rw [hcons]
  simp only [hrun]
  cases hb : pcOutcome (getValidToken now st).isSome e.pcFetch with
  | false =>
    refine ⟨{ st2 with lastNegativeVerifyAt := aset st2.lastNegativeVerifyAt id now }, ?_, ?_, ?_, ?_, ?_⟩
    · simp [hb]
    · simpa using hchk
    · simp [alookup_aset]
    · simp [hsub, hst1]
    · intro hc; cases hc
  | true =>
    have hmiss2 : ¬(id ∈ st2.subsIndex.ids) := by
      rw [hsub, hst1]
      exact hmiss
    refine ⟨{ st2 with lastNegativeVerifyAt := aset st2.lastNegativeVerifyAt id now, subsIndex := { st2.subsIndex with ids := st2.subsIndex.ids ++ [id] }, saves := st2.saves + 1 }, ?_, ?_, ?_, ?_, ?_⟩
    · simp [hb, hmiss2]
    · simpa using hchk
    · simp [alookup_aset]
    · simp [hsub, hst1]
    · intro _
      have := hslt hb
      simp only [hst1] at this ⊢
      omega

/-- Witness for C3: identifier `ucB` misses the one-entry index, was never
verified, the verification bucket is refillable, and the remote check
affirms membership. -/
theorem negative_verification_witness :
    ∃ st', isUserSubscribedLocal envOk 30000000 ucB stIdx =
        .ok (pcOutcome (getValidToken 30000000 stIdx).isSome envOk.pcFetch, st') ∧
      st'.pcChecks = stIdx.pcChecks + 1 ∧
      alookup st'.lastNegativeVerifyAt ucB = some 30000000 ∧
      st'.subsIndex.ids = stIdx.subsIndex.ids ++
        (if pcOutcome (getValidToken 30000000 stIdx).isSome envOk.pcFetch = true then [ucB]
          else []) ∧
      (pcOutcome (getValidToken 30000000 stIdx).isSome envOk.pcFetch = true →
        stIdx.saves < st'.saves) :=
  negative_verification_runs_once envOk 30000000 stIdx ucB (by decide) (by decide)
    (by decide) (by decide) (by decide) (by decide)

/-! ## Claim C1: error behavior of the membership decision -/

/-- Resolution never touches the subscription index or the stored token. -/
theorem resolveRefToUc_frame (re : ResolveEnv) (now : Nat) (ref : String) (st : St) :
    (resolveRefToUc re now ref st).2.subsIndex = st.subsIndex ∧
    (resolveRefToUc re now ref st).2.token = st.token := by
  have hpipe : ∀ (key : String) (s : St),
      (runResolvePipeline re now key s).2.subsIndex = s.subsIndex ∧
      (runResolvePipeline re now key s).2.token = s.token := by
    intro key s
    unfold runResolvePipeline
    cases re.htmlResolve <;> by_cases hk : re.searchKey <;>
      cases hr : re.searchResolve <;> simp [hk, hr]
  unfold resolveRefToUc
  simp only
  split
  · exact ⟨rfl, rfl⟩
  · split
    · split
      · simp
      · exact hpipe _ st
    · simp
    · exact hpipe _ st

/-- An environment identical to `envOk` except that the per-channel fetch
throws a network error. -/
def envNet : Env := ⟨⟨none, false, none⟩, .netErr⟩

/-- C1 counterexample: with a non-empty index, an identifier that misses
it, an expired negative-verification stamp, an available verification
token and a valid credential, a thrown per-channel fetch propagates out of
`isUserSubscribedLocal` — the function does NOT degrade this failure to
`false`. -/
theorem isMember_throw_counterexample :
    isThrown (isUserSubscribedLocal envNet 30000000 ucB stIdx) = true := by decide

/-- When the per-channel remote call does not complete (a valid token is
held and the fetch throws, or an OK body fails to parse),
`checkSubscribedPerChannel` raises. -/
theorem checkSubscribed_throws (f : PcFetch) (now : Nat) (id : String) (st : St)
    (h : pcCompletes (getValidToken now st).isSome f = false) :
    ∃ stE, checkSubscribedPerChannel f now id st = .error stE := by
  have htok : getValidToken now { st with pcChecks := st.pcChecks + 1 } =
      getValidToken now st := rfl
  unfold checkSubscribedPerChannel
  simp only
  rw [htok]
  cases hm : getValidToken now st with
  | none =>
    rw [hm] at h
    simp [pcCompletes] at h
  | some t =>
    rw [hm] at h
    simp only [pcCompletes, Option.isSome_some, Bool.not_true, Bool.false_eq_true,
      if_false] at h
    cases f with
    | netErr =>
      exact ⟨{ st with pcChecks := st.pcChecks + 1, netCalls := st.netCalls + 1 }, rfl⟩
    | resp ok status jsonOk hasItems =>
      simp at h
      obtain ⟨hok, hj⟩ := h
      subst hok
      subst hj
      refine ⟨{ st with pcChecks := st.pcChecks + 1, netCalls := st.netCalls + 1 }, ?_⟩
      simp

/-- C1 amended: every failure mode that completes degrades to `false`
rather than an exception: an unresolved reference returns `false`
(conjunct 3); a missing credential makes the per-channel check return
`false` without issuing a fetch (conjunct 4); a non-OK remote status makes
it return `false` (conjunct 5); a network error during the warm-start
check is caught and yields `false` (conjunct 6); and the whole decision
never throws when the per-channel check completes (conjunct 1), nor ever
when the index is empty (conjunct 2).  The sole exception — forced by the
counterexample above — is a fetch error thrown inside the
negative-verification branch, which propagates to the caller. -/
theorem isMember_failure_modes :
    (∀ (e : Env) (now : Nat) (id : String) (st : St),
      pcCompletes (getValidToken now st).isSome e.pcFetch = true →
      isThrown (isUserSubscribedLocal e now id st) = false) ∧
    (∀ (e : Env) (now : Nat) (id : String) (st : St),
      st.subsIndex.ids = [] →
      isThrown (isUserSubscribedLocal e now id st) = false) ∧
    (∀ (e : Env) (now : Nat) (ref : String) (st : St),
      jsStartsWith ref "UC" = false →
      (resolveRefToUc e.resolve now ref st).1 = none →
      isUserSubscribedLocal e now ref st =
        .ok (false, (resolveRefToUc e.resolve now ref st).2)) ∧
    (∀ (f : PcFetch) (now : Nat) (id : String) (st : St),
      getValidToken now st = none →
      checkSubscribedPerChannel f now id st =
        .ok (false, { st with pcChecks := st.pcChecks + 1 })) ∧
    (∀ (now : Nat) (id : String) (st : St) (status : Nat) (jsonOk hasItems : Bool),
      ∃ st', checkSubscribedPerChannel (.resp false status jsonOk hasItems) now id st =
        .ok (false, st')) ∧
    (∀ (e : Env) (now : Nat) (id : String) (st : St),
      jsStartsWith id "UC" = true →
      st.subsIndex.ids = [] →
      isSubsIndexStale now st = true →
      (refillBucket PC_BUDGET_MAX PC_BUDGET_REFILL_MS now st.pc).tokens > 0 →
      pcCompletes (getValidToken now st).isSome e.pcFetch = false →
      ∃ st', isUserSubscribedLocal e now id st = .ok (false, st')) := by
  have hdec : ∀ (e : Env) (now : Nat) (id : String) (st : St),
      pcCompletes (getValidToken now st).isSome e.pcFetch = true →
      isThrown (decideMembership e now id st) = false := by
    intro e now id st h
    unfold decideMembership
    split
    · split
      · split
        · split <;> simp [isThrown]
        · simp [isThrown]
      · simp [isThrown]
    · split
      · simp [isThrown]
      · simp only
        split
        · split
          · rename_i st1 heq
            have htk : st1.token = st.token := by
              have hfr : (consumeVerifyToken now st).2.token = st.token := rfl
              rw [heq] at hfr
              exact hfr
            have hcomp1 : pcCompletes (getValidToken now st1).isSome e.pcFetch = true := by
              have hg : getValidToken now st1 = getValidToken now st := by
                unfold getValidToken
                rw [htk]
              rw [hg]
              exact h
            obtain ⟨st2, hrun, -⟩ := checkSubscribed_completes e.pcFetch now id st1 hcomp1
            rw [hrun]
            split
            · rename_i heqE
              simp at heqE
            · split <;> simp [isThrown]
          · simp [isThrown]
        · simp [isThrown]
  have hempty : ∀ (e : Env) (now : Nat) (cid : String) (s2 : St),
      s2.subsIndex.ids = [] →
      isThrown (decideMembership e now cid s2) = false := by
    intro e now cid s2 h2
    unfold decideMembership
    rw [if_pos (by simp [h2])]
    split
    · split
      · split <;> simp [isThrown]
      · simp [isThrown]
    · simp [isThrown]
  refine ⟨?_, ?_, ?_, ?_, ?_, ?_⟩
  · intro e now id st h
    unfold isUserSubscribedLocal
    split
    · exact hdec e now id st h
    · split
      · simp [isThrown]
      · rename_i cid st1 heq
        have htk : (resolveRefToUc e.resolve now id st).2.token = st.token :=
          (resolveRefToUc_frame e.resolve now id st).2
        rw [heq] at htk
        refine hdec e now cid st1 ?_
        have hg : getValidToken now st1 = getValidToken now st := by
          unfold getValidToken
          rw [htk]
        rw [hg]
        exact h
  · intro e now id st h
    unfold isUserSubscribedLocal
    split
    · exact hempty e now _ _ h
    · split
      · simp [isThrown]
      · rename_i cid st1 heq
        have hsub : (resolveRefToUc e.resolve now id st).2.subsIndex = st.subsIndex :=
          (resolveRefToUc_frame e.resolve now id st).1
        rw [heq] at hsub
        refine hempty e now cid st1 ?_
        rw [hsub]
        exact h
  · intro e now ref st h3 hres
    unfold isUserSubscribedLocal
    rw [if_neg (by simp [h3])]
    rcases hr : resolveRefToUc e.resolve now ref st with ⟨o, st1⟩
    rw [hr] at hres
    simp only at hres
    subst hres
    rfl
  · intro f now id st hm
    have htok4 : getValidToken now { st with pcChecks := st.pcChecks + 1 } =
        getValidToken now st := rfl
    unfold checkSubscribedPerChannel
    simp only
    rw [htok4, hm]
  · intro now id st status jsonOk hasItems
    have htok5 : getValidToken now { st with pcChecks := st.pcChecks + 1 } =
        getValidToken now st := rfl
    unfold checkSubscribedPerChannel
    simp only
    rw [htok5]
    cases hm : getValidToken now st with
    | none => exact ⟨{ st with pcChecks := st.pcChecks + 1 }, rfl⟩
    | some t =>
      by_cases h4 : status = 401
      · subst h4
        refine ⟨{ st with pcChecks := st.pcChecks + 1, netCalls := st.netCalls + 1, token := none }, ?_⟩
        simp
      · refine ⟨{ st with pcChecks := st.pcChecks + 1, netCalls := st.netCalls + 1 }, ?_⟩
        simp [h4]
  · intro e now id st hUC hids hstale htokp hnc
    unfold isUserSubscribedLocal decideMembership
    simp only [hUC, if_pos]
    rw [if_pos (by simp [hids])]
    rw [if_pos hstale]
    split
    · rename_i st1 heq
      have htk : st1.token = st.token := by
        have hfr : (consumePcToken now st).2.token = st.token := rfl
        rw [heq] at hfr
        exact hfr
      have hnc1 : pcCompletes (getValidToken now st1).isSome e.pcFetch = false := by
        have hg : getValidToken now st1 = getValidToken now st := by
          unfold getValidToken
          rw [htk]
        rw [hg]
        exact hnc
      obtain ⟨stE, hE⟩ := checkSubscribed_throws e.pcFetch now id st1 hnc1
      rw [hE]
      exact ⟨stE, rfl⟩
    · rename_i st1 heq
      have hone : (consumePcToken now st).1 = true := by
        unfold consumePcToken consumeBucket
        simp only
        rw [if_pos htokp]
      rw [heq] at hone
      simp at hone

/-- Engine state with no stored credential. -/
def stNoTok : St := { stBase with token := none }

/-- Witness for the amended C1: a completing check never throws; an empty
index catches even a throwing check; an unresolved handle yields `false`;
a missing credential and a 500 status make the per-channel check yield
`false`; and a network error during the warm-start check yields `false`. -/
theorem isMember_failure_modes_witness :
    isThrown (isUserSubscribedLocal envOk 30000000 ucB stIdx) = false ∧
    isThrown (isUserSubscribedLocal envNet 30000000 ucB stBase) = false ∧
    isUserSubscribedLocal envNet 5000 "@nope" stIdx =
      .ok (false, (resolveRefToUc envNet.resolve 5000 "@nope" stIdx).2) ∧
    checkSubscribedPerChannel PcFetch.netErr 5000 ucB stNoTok =
      .ok (false, { stNoTok with pcChecks := stNoTok.pcChecks + 1 }) ∧
    (∃ st', checkSubscribedPerChannel (.resp false 500 true false) 5000 ucB stIdx =
      .ok (false, st')) ∧
    (∃ st', isUserSubscribedLocal envNet 5000 ucB stBase = .ok (false, st')) :=
  ⟨isMember_failure_modes.1 envOk 30000000 ucB stIdx (by decide),
   isMember_failure_modes.2.1 envNet 30000000 ucB stBase (by decide),
   isMember_failure_modes.2.2.1 envNet 5000 "@nope" stIdx (by decide) (by decide),
   isMember_failure_modes.2.2.2.1 PcFetch.netErr 5000 ucB stNoTok (by decide),
   isMember_failure_modes.2.2.2.2.1 5000 ucB stIdx 500 true false,
   isMember_failure_modes.2.2.2.2.2 envNet 5000 ucB stBase (by decide) (by decide)
     (by decide) (by decide) (by decide)⟩

/-! ## Claim C4: a failed refresh leaves the previous index untouched -/

/-- The paging loop, on any failing page sequence, reports `false`, keeps
the previous `subsIndex` (both `updatedAt` and `ids`) and performs no
persisting save, whatever identifiers have been accumulated so far. -/
theorem subsLoop_fail (now : Nat) (ps : List PageResult) :
    ∀ (accum : List String) (st : St), pagesFail ps = true →
      (subsLoop now ps accum st).1 = false ∧
      (subsLoop now ps accum st).2.subsIndex = st.subsIndex ∧
      (subsLoop now ps accum st).2.saves = st.saves := by
  induction ps with
  | nil => intro accum st _; simp [subsLoop]
  | cons p rest ih =>
    intro accum st hfail
    cases p with
    | throwErr => simp [subsLoop]
    | badStatus status =>
      by_cases h4 : status = 401 <;> simp [subsLoop, h4]
    | okPage ids hasNext =>
      cases hasNext with
      | false => simp [pagesFail] at hfail
      | true =>
        simp only [pagesFail] at hfail
        simpa [subsLoop] using
          ih (accum ++ ids.filter (fun i => jsStartsWith i "UC"))
            { st with netCalls := st.netCalls + 1 } hfail

/-- C4: if the page sequence fails anywhere before completion (a thrown
fetch, a non-OK status — including a 401, which also clears the stored
credential — or an exhausted oracle), `ensureSubsIndexFresh` returns
`false` and the previous subscription index is untouched (same `updatedAt`,
same `ids`), and the accumulated identifiers are never installed or
persisted (no save occurs). -/
theorem refresh_failure_preserves_index (force : Bool) (pages : List PageResult)
    (now : Nat) (st : St) (hfail : pagesFail pages = true) :
    (ensureSubsIndexFresh force pages now st).1 = false ∧
    (ensureSubsIndexFresh force pages now st).2.subsIndex = st.subsIndex ∧
    (ensureSubsIndexFresh force pages now st).2.saves = st.saves := by
  unfold ensureSubsIndexFresh
  split
  · simp
  · split
    · simp
    · cases getValidToken now st with
      | none => simp
      | some t =>
        simpa using subsLoop_fail now pages [] { st with syncing := true } hfail

/-- Witness for C4: a 403 on the second page aborts a forced refresh. -/
theorem refresh_failure_witness :
    (ensureSubsIndexFresh true [.okPage [ucA] true, .badStatus 403] 5000 stIdx).1 = false ∧
    (ensureSubsIndexFresh true [.okPage [ucA] true, .badStatus 403] 5000 stIdx).2.subsIndex =
      stIdx.subsIndex ∧
    (ensureSubsIndexFresh true [.okPage [ucA] true, .badStatus 403] 5000 stIdx).2.saves =
      stIdx.saves :=
  refresh_failure_preserves_index true [.okPage [ucA] true, .badStatus 403] 5000 stIdx
    (by decide)

/-! ## Claim C5: the concurrency guard of the refresh -/

/-- A forced refresh caller whose oracle serves one final page. -/
def raceTask : RefreshTask := ⟨true, [.okPage [ucB] false], .entry, 0⟩

/-- C5: the `syncing` guard does not ensure mutual exclusion.  Under the
schedule `A.entry, B.entry, A.tokenRead, B.tokenRead, A.page, B.page` —
legal because the guard is only set after the awaited credential read —
BOTH callers issue a remote paging call (`pagingCalls = 1` each, two
Data-API fetches in total) and BOTH complete their refresh with `true`;
the second caller does not observe `false` immediately.  This refutes "at
most one remote paging sequence executes". -/
theorem refresh_guard_race :
    (runTwo 5000 [false, true, false, true, false, true]
        (raceTask, raceTask, stIdx)).1.pagingCalls = 1 ∧
    (runTwo 5000 [false, true, false, true, false, true]
        (raceTask, raceTask, stIdx)).2.1.pagingCalls = 1 ∧
    (runTwo 5000 [false, true, false, true, false, true]
        (raceTask, raceTask, stIdx)).1.pc = .done true ∧
    (runTwo 5000 [false, true, false, true, false, true]
        (raceTask, raceTask, stIdx)).2.1.pc = .done true ∧
    (runTwo 5000 [false, true, false, true, false, true]
        (raceTask, raceTask, stIdx)).2.2.netCalls = stIdx.netCalls + 2 := by
  decide

/-! ## Claim C8: which values are lower-cased -/

/-- ASCII lower-casing is idempotent. -/
theorem charToLower_idem (c : Char) :
    Char.toLower (Char.toLower c) = Char.toLower c := by
  simp only [Char.toLower]
  by_cases h : c.toNat ≥ 65 ∧ c.toNat ≤ 90
  · have hv : (c.toNat + 32).isValidChar := Or.inl (by omega)
    have ht : (Char.ofNat (c.toNat + 32)).toNat = c.toNat + 32 := by
      rw [Char.ofNat, dif_pos hv]
      rfl
    rw [if_pos h, if_neg (by rw [ht]; omega)]
  · rw [if_neg h, if_neg h]

/-- The map `lowerStr` is idempotent. -/
theorem lowerStr_idem (s : String) : lowerStr (lowerStr s) = lowerStr s := by
  unfold lowerStr
  apply congrArg String.mk
  rw [List.map_map]
  exact List.map_congr_left fun c _ => charToLower_idem c

/-- The map `lowerStr` distributes over append. -/
theorem lowerStr_append (a b : String) :
    lowerStr (a ++ b) = lowerStr a ++ lowerStr b := by
  unfold lowerStr
  apply String.ext
  simp

/-- A handle value `"@" ++ lowerStr s` is a fixed point of `lowerStr`. -/
theorem lowerStr_handle_value (s : String) :
    lowerStr ("@" ++ lowerStr s) = "@" ++ lowerStr s := by
  rw [lowerStr_append, lowerStr_idem]
  have : lowerStr "@" = "@" := by decide
  rw [this]

set_option maxHeartbeats 1000000 in
/-- Every result of `normalizeRef` either has a kind other than `"handle"`
or is literally a `handleNorm` application. -/
theorem normalizeRef_handle_shape (r : String) :
    (normalizeRef r).kind ≠ "handle" ∨
    ∃ host clean, normalizeRef r = handleNorm host clean := by
  have hunk : ("unknown" : String) ≠ "handle" := by decide
  have huc : ("uc" : String) ≠ "handle" := by decide
  have hurl : ("url" : String) ≠ "handle" := by decide
  have hcn : ("c" : String) ≠ "handle" := by decide
  have hus : ("user" : String) ≠ "handle" := by decide
  unfold normalizeRef
  simp only
  split
  · exact Or.inl hunk
  · split
    · exact Or.inl huc
    · split
      · exact Or.inr ⟨_, _, rfl⟩
      · split
        · exact Or.inl hunk
        · split
          · split
            · exact Or.inl huc
            · exact Or.inl hurl
          · split
            · exact Or.inr ⟨_, _, rfl⟩
            · split
              · exact Or.inl hcn
              · split
                · exact Or.inl hus
                · exact Or.inl hurl

/-- C8 counterexample: `canonicalValue` is NOT lower-cased for every kind.
A canonical id keeps its mandatory upper-case `UC` prefix (kind `uc`), and
a vanity `/c/` name keeps its original case. -/
theorem value_not_lowercased_counterexample :
    (normalizeRef "UCABCDEFGHIJKLMNOPQRSTUV").kind = "uc" ∧
    ¬lowerStr (normalizeRef "UCABCDEFGHIJKLMNOPQRSTUV").value =
      (normalizeRef "UCABCDEFGHIJKLMNOPQRSTUV").value ∧
    (normalizeRef "/c/SomeName").kind = "c" ∧
    ¬lowerStr (normalizeRef "/c/SomeName").value = (normalizeRef "/c/SomeName").value := by
  decide

/-- C8 amended: `normalizeRef` lower-cases the value exactly for the
`handle` kind; the other kinds keep the input's case (see the
counterexample), and what is lower-cased for every kind is the reference
cache key `kind:value` built by `resolveRefToUc`. -/
theorem handle_value_and_cache_key_lowercased :
    (∀ r : String, (normalizeRef r).kind = "handle" →
      lowerStr (normalizeRef r).value = (normalizeRef r).value) ∧
    (∀ ref : String, lowerStr (refCacheKey ref) = refCacheKey ref) := by
  constructor
  · intro r h
    rcases normalizeRef_handle_shape r with hne | ⟨host, clean, heq⟩
    · exact absurd h hne
    · rw [heq]
      exact lowerStr_handle_value clean
  · intro ref
    unfold refCacheKey
    exact lowerStr_idem _

/-- Witness for the amended C8 at a mixed-case handle. -/
theorem handle_value_lowercased_witness :
    lowerStr (normalizeRef "@FooBar").value = (normalizeRef "@FooBar").value ∧
    lowerStr (refCacheKey "/c/SomeName") = refCacheKey "/c/SomeName" :=
  ⟨handle_value_and_cache_key_lowercased.1 "@FooBar" (by decide),
   handle_value_and_cache_key_lowercased.2 "/c/SomeName"⟩
